import Mathlib

/-!
Verification development for the NovaTech assistant's query-understanding
pipeline.  The definitions below are a shallow embedding of the Python
sources:

  * `src/core/query_processor.py`   (QueryProcessor)
  * `src/utils/knowledge_loader.py` (KnowledgeLoader)
  * `src/utils/langgraph_conversation_manager.py` (session tracking)
  * `src/core/simple_context.py`    (ContextProvider)
  * `src/config.py`                 (AssistantConfig constants)

Floats are modelled by rationals; Python `datetime` instants by rationals
(seconds); the JSON knowledge base by an explicit `Json` value type, with
the on-disk files abstracted as an association list `category -> Json`.
Regular expressions used by the source are restricted ones (word-bounded
literal substitution with IGNORECASE, and search patterns built from
literals, `?`, `.` and `.*` with optional `^...$` anchors); they are
implemented directly on character lists.  Recursions use an explicit fuel
argument (always instantiated large enough, so it never runs out) to keep
every definition kernel-computable.
-/

namespace NovaTech

/-- Apostrophe character, used to build string literals that contain one. -/
def apC : Char := Char.ofNat 39

/-- Apostrophe as a one-character string. -/
def apS : String := String.mk [apC]

/-- Python regex word character (`\w` over ASCII): letters, digits, underscore. -/
def isWordChar (c : Char) : Bool :=
  (('a' ≤ c && c ≤ 'z') || ('A' ≤ c && c ≤ 'Z') || ('0' ≤ c && c ≤ '9') || c = '_')

/-- Python `\s` over ASCII: space, tab, newline, carriage return, vertical tab, form feed. -/
def pyIsSpace (c : Char) : Bool :=
  (c = ' ' || c = '\t' || c = '\n' || c = '\r' || c = Char.ofNat 11 || c = Char.ofNat 12)

/-- Lower-case every character (Python `str.lower` on ASCII input). -/
def lowerL (s : List Char) : List Char := s.map Char.toLower

/-- `lowerL` packaged on `String` (Python `str.lower`). -/
def lowerS (s : String) : String := String.mk (lowerL s.data)

/-- Case-insensitive test that `k` (already lower-case) starts the list `s`. -/
def prefCI : List Char → List Char → Bool
  | [], _ => true
  | _ :: _, [] => false
  | a :: as, b :: bs => (b.toLower = a) && prefCI as bs

/-- Case-sensitive list-starts-with test. -/
def prefOf : List Char → List Char → Bool
  | [], _ => true
  | _ :: _, [] => false
  | a :: as, b :: bs => (a = b) && prefOf as bs

/-- Substring containment (Python `in` on strings), case-sensitive. -/
def containsSub (p : List Char) : List Char → Bool
  | [] => p.isEmpty
  | c :: rest => prefOf p (c :: rest) || containsSub p rest

/-- `containsSub` packaged on `String`. -/
def containsSubS (p s : String) : Bool := containsSub p.data s.data

/-- Last character of `c :: rest`. -/
def lastD (c : Char) : List Char → Char
  | [] => c
  | x :: xs => lastD x xs

/-- Word-character status of an optional character; string edges count as non-word. -/
def optIsWord : Option Char → Bool
  | none => false
  | some c => isWordChar c

/-- One word-bounded, case-insensitive replace-all pass, modelling
`re.sub(r'\b' + re.escape(slang) + r'\b', formal, s, flags=re.IGNORECASE)`
(`query_processor.py`, `normalize_slang`).  Matches are located in the
original string scanning left to right, exactly as `re.sub` does; `prev`
is the character of the original string just before the current position.
`fuel` starts at `s.length` and at least one character is consumed per
step, so it never runs out. -/
def subWB (k0 : Char) (kTail f : List Char) (fuel : Nat) (prev : Option Char)
    (s : List Char) : List Char :=
  match fuel, s with
  | 0, s => s
  | _ + 1, [] => []
  | fuel + 1, c :: rest =>
    let k := k0 :: kTail
    if prefCI k (c :: rest)
        && (optIsWord prev != isWordChar k0)
        && (isWordChar (lastD k0 kTail) != optIsWord ((c :: rest).drop k.length).head?) then
      f ++ subWB k0 kTail f fuel (some (lastD k0 kTail)) ((c :: rest).drop k.length)
    else
      c :: subWB k0 kTail f fuel (some c) rest

/-- Apply one slang-dictionary entry to the whole string. -/
def applyEntry (s : List Char) (kf : String × String) : List Char :=
  match kf.1.data with
  | [] => s
  | k0 :: kTail => subWB k0 kTail kf.2.data s.length none s

/-- Collapse runs of whitespace to single spaces (`re.sub(r'\s+', ' ', s)`). -/
def collapseWsGo : Bool → List Char → List Char
  | _, [] => []
  | prevSp, c :: rest =>
    if pyIsSpace c then
      if prevSp then collapseWsGo true rest else ' ' :: collapseWsGo true rest
    else c :: collapseWsGo false rest

/-- Python `str.strip()`: drop leading and trailing whitespace. -/
def stripL (s : List Char) : List Char :=
  (((s.dropWhile pyIsSpace).reverse).dropWhile pyIsSpace).reverse

/-- The slang dictionary of `QueryProcessor._build_slang_dictionary`, in source order. -/
def slangEntries : List (String × String) := [
  ("yo", "hello"),
  ("hey", "hello"),
  ("sup", "what" ++ apS ++ "s up"),
  ("whats up", "what" ++ apS ++ "s up"),
  ("wassup", "what" ++ apS ++ "s up"),
  ("howdy", "hello"),
  ("this company", "NovaTech"),
  ("the company", "NovaTech"),
  ("your company", "NovaTech"),
  ("novatech", "NovaTech"),
  ("nova tech", "NovaTech"),
  ("the firm", "NovaTech"),
  ("the business", "NovaTech"),
  ("whos", "who is"),
  ("whats", "what is"),
  ("hows", "how is"),
  ("wheres", "where is"),
  ("whens", "when is"),
  ("why" ++ apS ++ "s", "why is"),
  ("how" ++ apS ++ "s", "how is"),
  ("what" ++ apS ++ "s", "what is"),
  ("where" ++ apS ++ "s", "where is"),
  ("when" ++ apS ++ "s", "when is"),
  ("can you", "can NovaTech"),
  ("does nova", "does NovaTech"),
  ("is nova", "is NovaTech"),
  ("has nova", "has NovaTech"),
  ("will nova", "will NovaTech"),
  ("would nova", "would NovaTech"),
  ("code", "program"),
  ("coding", "programming"),
  ("n stuff", "and other things"),
  ("and stuff", "and other things"),
  ("n things", "and other things"),
  ("tech stuff", "technology"),
  ("dev work", "development work"),
  ("backend stuff", "backend development"),
  ("frontend stuff", "frontend development"),
  ("good at", "skilled in"),
  ("know", "knowledgeable about"),
  ("knows", "knowledgeable about"),
  ("familiar with", "experienced with"),
  ("worked with", "experienced with"),
  ("used", "experienced with"),
  ("gonna", "going to"),
  ("wanna", "want to"),
  ("gotta", "have to"),
  ("lemme", "let me"),
  ("gimme", "give me"),
  ("dunno", "don" ++ apS ++ "t know"),
  ("kinda", "kind of"),
  ("sorta", "sort of"),
  ("prolly", "probably"),
  ("def", "definitely"),
  ("deffo", "definitely"),
  ("n", "and"),
  ("&", "and"),
  ("cuz", "because"),
  ("cos", "because"),
  ("cause", "because"),
  ("rn", "right now"),
  ("atm", "at the moment"),
  ("btw", "by the way"),
  ("fyi", "for your information"),
  ("imo", "in my opinion"),
  ("imho", "in my humble opinion"),
  ("tbh", "to be honest"),
  ("ngl", "not gonna lie"),
  ("info", "information"),
  ("deets", "details"),
  ("specs", "specifications"),
  ("exp", "experience"),
  ("edu", "education"),
  ("bg", "background"),
  ("cv", "resume"),
  ("pf", "portfolio"),
  ("proj", "project"),
  ("progs", "programs"),
  ("apps", "applications"),
  ("langs", "languages"),
  ("techs", "technologies"),
  ("job", "work experience"),
  ("gig", "work experience"),
  ("work", "work experience"),
  ("company", "workplace"),
  ("employer", "workplace"),
  ("boss", "manager")]

/-- `QueryProcessor.normalize_slang`: lower-case and strip the input, apply
every slang-dictionary substitution in order, then collapse whitespace
runs and strip again. -/
def normalize_slang (query : String) : String :=
  let s0 := stripL (lowerL query.data)
  let s1 := slangEntries.foldl applyEntry s0
  String.mk (stripL (collapseWsGo false s1))

/-! ### A matcher for the restricted regular expressions used by `classify_query`

The intent patterns of `_build_intent_patterns` only use literal characters,
`?` on the previous literal, `.` (and the combination `.*`), and optional
`^...$` anchors.  They are compiled to token lists and matched with
`re.search` semantics under `re.IGNORECASE`; `.` does not match a newline. -/

inductive RTok where
  | lit (c : Char)
  | opt (c : Char)
  | dot
  | star
deriving DecidableEq

/-- Tokenize the body of a pattern (anchors already removed). -/
def toTokens : List Char → List RTok
  | [] => []
  | '.' :: '*' :: rest => RTok.star :: toTokens rest
  | '.' :: rest => RTok.dot :: toTokens rest
  | c :: '?' :: rest => RTok.opt c :: toTokens rest
  | c :: rest => RTok.lit c :: toTokens rest

/-- Split off a leading `^` and a trailing `$` anchor.
Returns (anchored-at-start, anchored-at-end, body). -/
def splitAnchors (p : List Char) : Bool × Bool × List Char :=
  let (a, p1) := match p with
    | '^' :: rest => (true, rest)
    | _ => (false, p)
  match p1.reverse with
  | '$' :: rev => (a, true, rev.reverse)
  | _ => (a, false, p1)

/-- Tails of `s` reachable by `.*` (it cannot cross a newline), longest first. -/
def dotTails (s : List Char) : List (List Char) :=
  s :: match s with
  | [] => []
  | c :: rest => if c = '\n' then [] else dotTails rest

/-- All tails of a list, longest first. -/
def allTails (s : List Char) : List (List Char) :=
  s :: match s with
  | [] => []
  | _ :: rest => allTails rest

/-- Do the tokens match the whole of `s` (case-insensitively)? -/
def matchFull : List RTok → List Char → Bool
  | [], s => s.isEmpty
  | RTok.lit c :: ts, s =>
    match s with
    | [] => false
    | d :: ds => (d.toLower = c.toLower) && matchFull ts ds
  | RTok.opt c :: ts, s =>
    matchFull ts s ||
      (match s with
       | [] => false
       | d :: ds => (d.toLower = c.toLower) && matchFull ts ds)
  | RTok.dot :: ts, s =>
    match s with
    | [] => false
    | d :: ds => (d != '\n') && matchFull ts ds
  | RTok.star :: ts, s => (dotTails s).any fun s2 => matchFull ts s2

/-- Do the tokens match some prefix of `s` (case-insensitively)? -/
def matchPre : List RTok → List Char → Bool
  | [], _ => true
  | RTok.lit c :: ts, s =>
    match s with
    | [] => false
    | d :: ds => (d.toLower = c.toLower) && matchPre ts ds
  | RTok.opt c :: ts, s =>
    matchPre ts s ||
      (match s with
       | [] => false
       | d :: ds => (d.toLower = c.toLower) && matchPre ts ds)
  | RTok.dot :: ts, s =>
    match s with
    | [] => false
    | d :: ds => (d != '\n') && matchPre ts ds
  | RTok.star :: ts, s => (dotTails s).any fun s2 => matchPre ts s2

/-- `re.search(pattern, s, re.IGNORECASE)` for the restricted pattern language. -/
def reSearch (pattern : String) (s : List Char) : Bool :=
  let (a, b, body) := splitAnchors pattern.data
  let ts := toTokens body
  match a, b with
  | true, true => matchFull ts s
  | true, false => matchPre ts s
  | false, true => (allTails s).any fun s2 => matchFull ts s2
  | false, false => (allTails s).any fun s2 => matchPre ts s2

/-- Query intents (`QueryType` enum of `query_processor.py`). -/
inductive QueryType where
  | COMPANY_INFO
  | PRODUCTS
  | LEADERSHIP
  | PARTNERS
  | CASUAL_CHAT
  | CONTACT_INFO
  | GENERAL
  | FILE_ANALYSIS
  | REAL_TIME
  | UNKNOWN
deriving DecidableEq

/-- The `.value` string of each `QueryType` member. -/
def QueryType.value : QueryType → String
  | COMPANY_INFO => "company_info"
  | PRODUCTS => "products"
  | LEADERSHIP => "leadership"
  | PARTNERS => "partners"
  | CASUAL_CHAT => "casual_chat"
  | CONTACT_INFO => "contact_info"
  | GENERAL => "general"
  | FILE_ANALYSIS => "file_analysis"
  | REAL_TIME => "real_time"
  | UNKNOWN => "unknown"

/-- The intent pattern table of `_build_intent_patterns`, in source (insertion) order. -/
def intentPatterns : List (QueryType × List String) := [
  (QueryType.CASUAL_CHAT, [
    "^hi$", "^hello$", "^hey$", "^sup$", "^whats? up$", "^howdy$",
    "^good morning$", "^good afternoon$", "^good evening$", "^how are you$",
    "^who are you$", "^what are you$", "^i am human$",
    "^i" ++ apS ++ "m human$"]),
  (QueryType.CONTACT_INFO, [
    "contact.*info", "how.*reach", "email.*address", "phone.*number",
    "website", "office.*location", "get.*touch", "reach.*out",
    "contact.*nova", "email.*nova", "phone.*nova"]),
  (QueryType.PRODUCTS, [
    "products?", "services?", "offerings?", "nova.*crm", "nova.*hr",
    "nova.*desk", "nova.*analytics", "pricing", "cost", "price",
    "subscription", "trial", "features?", "what.*products",
    "what.*services", "what.*offerings"]),
  (QueryType.LEADERSHIP, [
    "leadership", "ceo", "cto", "coo", "management", "executives?",
    "founders?", "directors?", "managers?", "who.*ceo", "who.*cto",
    "who.*coo", "who.*leads", "who.*runs", "who.*manages",
    "leadership.*team", "management.*team"]),
  (QueryType.PARTNERS, [
    "partners?", "partnerships?", "strategic.*partners?", "ecosystem",
    "integrations?", "collaborations?", "alliances?", "who.*partners",
    "what.*partners", "which.*partners", "partner.*companies?",
    "integrations?.*available", "third.*party"]),
  (QueryType.COMPANY_INFO, [
    "company.*info", "about.*nova", "about.*company", "mission", "vision",
    "values", "culture", "headquarters", "office.*location", "founded",
    "established", "industry", "sector", "what.*nova", "who.*nova",
    "tell.*me.*about.*nova", "company.*background", "business.*model",
    "revenue", "financials", "valuation", "employees", "team.*size"]),
  (QueryType.GENERAL, [
    "what.*is.*ai", "what.*is.*machine.*learning", "what.*is.*python",
    "what.*is.*programming", "what.*is.*software.*development",
    "what.*is.*data.*science", "what.*is.*computer.*vision",
    "what.*is.*deep.*learning", "what.*is.*artificial.*intelligence",
    "explain.*ai", "explain.*machine.*learning", "explain.*python",
    "explain.*programming", "how.*does.*ai.*work",
    "how.*does.*machine.*learning.*work", "how.*does.*python.*work",
    "define.*ai", "define.*machine.*learning", "define.*python",
    "define.*programming"]),
  (QueryType.REAL_TIME, [
    "current.*activity", "recent.*work", "latest.*projects?",
    "github.*activity", "what.*working.*on", "trending", "news", "weather",
    "job.*opportunities"])]

/-- The company-knowledge intents whose confidence is boosted in the scoring loop. -/
def companyBoostTypes : List QueryType :=
  [QueryType.COMPANY_INFO, QueryType.CONTACT_INFO, QueryType.PRODUCTS,
   QueryType.LEADERSHIP, QueryType.PARTNERS]

/-- One iteration of the scoring loop of `classify_query` for a single
`(query_type, patterns)` entry: count matches, accumulate `len(pattern)/100`
per match, update the best intent when the final score is higher, and then
(inside the loop, as in the source) boost by `1.2` capped at `1.0` whenever
the current best intent is a company-knowledge intent. -/
def classifyStep (nq : List Char) (st : QueryType × ℚ) (entry : QueryType × List String) :
    QueryType × ℚ :=
  let pats := entry.2
  let matched := pats.filter fun p => reSearch p nq
  let m : Nat := matched.length
  let score : ℚ := (matched.map fun p => (p.length : ℚ) / 100).sum
  let st1 :=
    if 0 < m then
      let finalScore := score / (pats.length : ℚ) + (m : ℚ) / (pats.length : ℚ)
      if st.2 < finalScore then (entry.1, finalScore) else st
    else st
  if companyBoostTypes.contains st1.1 then (st1.1, min (st1.2 * (6/5)) 1) else st1

/-- The exact-match greeting strings special-cased by `classify_query`. -/
def greetingExacts : List String := ["hi", "hello", "hey", "sup", "whats up", "howdy"]

/-- `QueryProcessor.classify_query`: normalize and lower-case the query, run
the pattern-scoring loop over every intent, then apply the two special-case
overrides (exact greeting match, and containment of "who are you" /
"what are you"). -/
def classify_query (query : String) : QueryType × ℚ :=
  let nq := lowerL (normalize_slang query).data
  let r0 := intentPatterns.foldl (classifyStep nq) (QueryType.UNKNOWN, 0)
  let r1 := if greetingExacts.any (fun g => g.data == nq) then
              (QueryType.CASUAL_CHAT, 1) else r0
  if containsSub "who are you".data nq || containsSub "what are you".data nq then
    (QueryType.CASUAL_CHAT, 4/5)
  else r1

/-! ### Knowledge loader (`src/utils/knowledge_loader.py`)

The JSON knowledge files live outside the repository's Python sources; they
are abstracted as an association list `Files` from category name to the
parsed JSON value, and `load_knowledge_file` is the (mtime-cache
transparent) lookup restricted to the configured categories. -/

/-- Parsed JSON values (`json.load` output). -/
inductive Json where
  | str (s : String)
  | num (q : ℚ)
  | bool (b : Bool)
  | null
  | arr (items : List Json)
  | obj (fields : List (String × Json))

/-- Python truthiness (`if not data`) for a parsed JSON value. -/
def jsonFalsy : Json → Bool
  | Json.str s => s.data.isEmpty
  | Json.num q => q = 0
  | Json.bool b => !b
  | Json.null => true
  | Json.arr items => items.isEmpty
  | Json.obj fields => fields.isEmpty

/-- The key set of `config.KNOWLEDGE_BASE_FILES`, in insertion order. -/
def KNOWLEDGE_BASE_KEYS : List String :=
  ["company_info", "leadership", "products", "partners", "faq", "marketing",
   "news", "market_data", "industry_trends", "user_learning"]

/-- The knowledge-base directory contents: parsed JSON per present category. -/
abbrev Files := List (String × Json)

/-- `KnowledgeLoader.load_knowledge_file`: `None` for unknown categories and
missing files, otherwise the parsed JSON (the mtime cache is transparent). -/
def load_knowledge_file (files : Files) (category : String) : Option Json :=
  if KNOWLEDGE_BASE_KEYS.contains category then
    (files : List (String × Json)).lookup category
  else none

/-- One candidate produced by the recursive knowledge search. -/
structure SearchResult where
  category : String
  path : String
  key : String
  value : Json
  relevance : ℚ

/-- `KnowledgeLoader._calculate_relevance`: key contribution 1.0 for an exact
match, else 0.7 for a substring match; value contribution (strings only)
0.8 exact, else 0.5 substring; total capped at 1.0. -/
def calculate_relevance (query : String) (key : String) (value : Json) : ℚ :=
  let score : ℚ :=
    if query = lowerS key then 1
    else if containsSubS query (lowerS key) then 7/10
    else 0
  let score : ℚ :=
    match value with
    | Json.str v =>
      if query = lowerS v then score + 4/5
      else if containsSubS query (lowerS v) then score + 1/2
      else score
    | _ => score
  min score 1

/-- The first query word matching the key or a string value
(the `for word in query_words ... break` loop of `_search_recursive`). -/
def firstMatchWord (words : List String) (key : String) (value : Json) : Option String :=
  words.find? fun w =>
    containsSubS w (lowerS key) ||
      (match value with
       | Json.str v => containsSubS w (lowerS v)
       | _ => false)

/-- `KnowledgeLoader._search_recursive`: walk dictionaries and lists, emitting
one candidate per key whose key or string value contains a query word, then
recursing into nested structures.  `fuel` bounds the nesting depth; it is
called with the structural size of the data, which always suffices. -/
def searchRecursive (fuel : Nat) (data : Json) (words : List String)
    (category : String) (path : String) : List SearchResult :=
  match fuel with
  | 0 => []
  | fuel + 1 =>
    match data with
    | Json.obj fields =>
      fields.foldr
        (fun kv acc =>
          let currentPath := if path = "" then kv.1 else path ++ "." ++ kv.1
          let here := match firstMatchWord words kv.1 kv.2 with
            | some w =>
              [{ category := category, path := currentPath, key := kv.1,
                 value := kv.2, relevance := calculate_relevance w kv.1 kv.2 }]
            | none => []
          let nested := match kv.2 with
            | Json.obj _ => searchRecursive fuel kv.2 words category currentPath
            | Json.arr _ => searchRecursive fuel kv.2 words category currentPath
            | _ => []
          here ++ nested ++ acc)
        []
    | Json.arr items =>
      (items.enum).foldr
        (fun ix acc =>
          searchRecursive fuel ix.2 words category
            (path ++ "[" ++ toString ix.1 ++ "]") ++ acc)
        []
    | _ => []

/-- Search fuel for a JSON value: its structural size, which strictly
exceeds the size of every nested value, so `searchRecursive` never hits
its fuel cutoff when started with it. -/
def jsonFuel : Json → Nat
  | Json.obj fields => 1 + jsonFuelFields fields
  | Json.arr items => 1 + jsonFuelList items
  | _ => 1
where
  jsonFuelFields : List (String × Json) → Nat
    | [] => 0
    | (_, v) :: rest => jsonFuel v + jsonFuelFields rest
  jsonFuelList : List Json → Nat
    | [] => 0
    | x :: rest => jsonFuel x + jsonFuelList rest

/-- Split on whitespace runs (Python `str.split()` with no separator). -/
def splitWs : List Char → List Char → List (List Char)
  | acc, [] => if acc.isEmpty then [] else [acc.reverse]
  | acc, c :: rest =>
    if pyIsSpace c then
      if acc.isEmpty then splitWs [] rest else acc.reverse :: splitWs [] rest
    else splitWs (c :: acc) rest

/-- The query words used by the search: lower-cased, whitespace-split,
keeping words longer than two characters. -/
def queryWords (query : String) : List String :=
  ((splitWs [] (lowerL query.data)).filter fun w => 2 < w.length).map String.mk

/-- `KnowledgeLoader.search_in_knowledge`: search the hinted category, or all
configured categories when no hint is given, skipping missing or falsy data. -/
def search_in_knowledge (files : Files) (query : String) (category : Option String) :
    List SearchResult :=
  let words := queryWords query
  let cats := match category with
    | some c => [c]
    | none => KNOWLEDGE_BASE_KEYS
  cats.foldl
    (fun acc cat =>
      match load_knowledge_file files cat with
      | none => acc
      | some data =>
        if jsonFalsy data then acc
        else acc ++ searchRecursive (jsonFuel data) data words cat "")
    []

/-! ### Knowledge search and the processing pipeline (`query_processor.py`) -/

/-- The `category_mapping` of `search_knowledge_base`: `None` entries and
missing keys (via `dict.get`) both mean "search all categories". -/
def categoryOf : QueryType → Option String
  | QueryType.CONTACT_INFO => some "company_info"
  | QueryType.PRODUCTS => some "products"
  | QueryType.LEADERSHIP => some "leadership"
  | QueryType.PARTNERS => some "partners"
  | QueryType.COMPANY_INFO => some "company_info"
  | _ => none

/-- Insert into a descending-by-relevance list, after existing entries of
equal relevance (stability of Python `sorted`). -/
def insDesc (x : SearchResult) : List SearchResult → List SearchResult
  | [] => [x]
  | y :: ys => if y.relevance < x.relevance then x :: y :: ys else y :: insDesc x ys

/-- Stable descending sort by relevance
(`sorted(results, key=lambda x: x.get("relevance", 0), reverse=True)`). -/
def sortByRelDesc (results : List SearchResult) : List SearchResult :=
  results.foldl (fun acc x => insDesc x acc) []

/-- `QueryProcessor.search_knowledge_base`: normalize, search the category
hinted by the intent, and score confidence as the mean relevance of the top
three results (`0.0` when there are none). -/
def search_knowledge_base (files : Files) (query : String) (queryType : QueryType) :
    List SearchResult × ℚ :=
  let nq := normalize_slang query
  let results := search_in_knowledge files nq (categoryOf queryType)
  let confidence : ℚ :=
    if results.isEmpty then 0
    else
      let topResults := (sortByRelDesc results).take 3
      (topResults.map fun r => r.relevance).sum / (topResults.length : ℚ)
  (results, confidence)

/-- The entity tables of `_build_entity_patterns`, in source order. -/
def entityPatterns : List (String × List String) := [
  ("programming_languages",
   ["python", "javascript", "java", "c++", "c#", "go", "rust", "ruby",
    "php", "swift", "kotlin", "typescript", "scala", "r", "matlab", "sql"]),
  ("frameworks",
   ["react", "angular", "vue", "django", "flask", "spring", "express",
    "fastapi", "rails", "laravel", "nextjs", "nuxt", "svelte"]),
  ("technologies",
   ["aws", "docker", "kubernetes", "git", "jenkins", "terraform",
    "mongodb", "postgresql", "mysql", "redis", "elasticsearch"]),
  ("companies",
   ["google", "microsoft", "amazon", "apple", "facebook", "meta",
    "netflix", "uber", "airbnb", "spotify", "github"]),
  ("skills",
   ["machine learning", "ai", "data science", "web development",
    "mobile development", "devops", "cloud computing", "cybersecurity"])]

/-- `QueryProcessor.extract_entities`: substring membership of each known
entity in the normalized, lower-cased query; categories with no hits are
omitted. -/
def extract_entities (query : String) : List (String × List String) :=
  let nq := lowerL (normalize_slang query).data
  entityPatterns.foldl
    (fun acc entry =>
      let found := entry.2.filter fun e => containsSub (lowerL e.data) nq
      if found.isEmpty then acc else acc ++ [(entry.1, found)])
    []

/-- `config.ADVANCED_PROCESSING_CONFIDENCE_THRESHOLD`. -/
def ADVANCED_PROCESSING_CONFIDENCE_THRESHOLD : ℚ := 1/2

/-- `config.COMPANY_QUERY_TYPES`. -/
def COMPANY_QUERY_TYPES : List String :=
  ["company_info", "products", "leadership", "partners",
   "casual_chat", "contact_info", "news", "market_data",
   "industry_trends", "user_learning"]

/-- The result dictionary built by `QueryProcessor.process_query`. -/
structure ProcessingResult where
  original_query : String
  normalized_query : String
  query_type : QueryType
  classification_confidence : ℚ
  knowledge_confidence : ℚ
  overall_confidence : ℚ
  entities : List (String × List String)
  knowledge_results : List SearchResult
  should_use_advanced : Bool
  processing_route : String

/-- `QueryProcessor.process_query`: normalize, classify (the classifier
re-normalizes internally, as in the source), extract entities, search the
knowledge base, average the two confidences, and route to `"advanced"`
exactly when the overall confidence reaches the configured threshold and
the intent's value string is in `COMPANY_QUERY_TYPES`; otherwise to
`"gemini"`. -/
def process_query (files : Files) (query : String) : ProcessingResult :=
  let normalizedQuery := normalize_slang query
  let classified := classify_query normalizedQuery
  let queryType := classified.1
  let classificationConfidence := classified.2
  let entities := extract_entities normalizedQuery
  let searched := search_knowledge_base files normalizedQuery queryType
  let knowledgeResults := searched.1
  let knowledgeConfidence := searched.2
  let overallConfidence := (classificationConfidence + knowledgeConfidence) / 2
  let shouldUseAdvanced :=
    decide (ADVANCED_PROCESSING_CONFIDENCE_THRESHOLD ≤ overallConfidence) &&
      COMPANY_QUERY_TYPES.contains queryType.value
  { original_query := query
    normalized_query := normalizedQuery
    query_type := queryType
    classification_confidence := classificationConfidence
    knowledge_confidence := knowledgeConfidence
    overall_confidence := overallConfidence
    entities := entities
    knowledge_results := knowledgeResults
    should_use_advanced := shouldUseAdvanced
    processing_route := if shouldUseAdvanced then "advanced" else "gemini" }

/-! ### Conversation sessions (`langgraph_conversation_manager.py`)

Instants (`datetime.now()`) are modelled as rational seconds; the configured
timeout `config.LANGGRAPH_CONVERSATION_TIMEOUT` is a parameter. -/

/-- `ConversationState` enum. -/
inductive ConversationState where
  | GREETING
  | QUESTION_ANSWERING
  | PRODUCT_INQUIRY
  | LEADERSHIP_INFO
  | COMPANY_INFO
  | FOLLOW_UP
  | CLOSING
deriving DecidableEq

/-- One entry of `conversation_history`. -/
structure HistoryMessage where
  role : String
  content : String
  timestamp : ℚ
  state : ConversationState

/-- The `ConversationContext` dataclass (fields the session logic reads). -/
structure ConversationContext where
  user_id : String
  session_id : String
  current_state : ConversationState
  conversation_history : List HistoryMessage
  response_count : Nat
  start_time : ℚ
  last_activity : ℚ

/-- `ConversationContext.is_timed_out`: has more than `timeout` seconds
elapsed since the last activity? -/
def is_timed_out (timeout : ℚ) (now : ℚ) (ctx : ConversationContext) : Bool :=
  decide (timeout < now - ctx.last_activity)

/-- The process-wide session map `LangGraphConversationManager.conversations`. -/
abbrev Conversations := List (String × ConversationContext)

/-- Removal of a session id from the map (`del self.conversations[session_id]`). -/
def eraseSession (sessionId : String) (conversations : Conversations) : Conversations :=
  (conversations : List (String × ConversationContext)).filter fun kv => kv.1 != sessionId

/-- `LangGraphConversationManager.get_conversation`: look the session up;
a timed-out record is deleted and reported as absent.  Returns the lookup
result together with the updated session map. -/
def get_conversation (timeout : ℚ) (now : ℚ) (conversations : Conversations)
    (sessionId : String) : Option ConversationContext × Conversations :=
  match (conversations : List (String × ConversationContext)).lookup sessionId with
  | none => (none, conversations)
  | some ctx =>
    if is_timed_out timeout now ctx then (none, eraseSession sessionId conversations)
    else (some ctx, conversations)

/-- `LangGraphConversationManager.start_conversation`: a fresh context in the
initial state, registered under the session id. -/
def start_conversation (userId sessionId : String) (now : ℚ)
    (conversations : Conversations) : ConversationContext × Conversations :=
  let ctx : ConversationContext :=
    { user_id := userId, session_id := sessionId,
      current_state := ConversationState.GREETING, conversation_history := [],
      response_count := 0, start_time := now, last_activity := now }
  (ctx, (conversations : List (String × ConversationContext)) ++ [(sessionId, ctx)])

/-! ### Context provider (`src/core/simple_context.py`) -/

/-- Join strings with a separator. -/
def joinSep (sep : String) : List String → String
  | [] => ""
  | [x] => x
  | x :: rest => x ++ sep ++ joinSep sep rest

/-- Python `repr` of a parsed JSON value (used by `str` on containers).
Numeric rendering is approximated: integers render exactly, which is the
only numeric shape the formatting paths of the claims exercise. -/
def pyRepr : Json → String
  | Json.str s => apS ++ s ++ apS
  | Json.num q => if q.den = 1 then toString q.num else toString q.num ++ "/" ++ toString q.den
  | Json.bool b => if b then "True" else "False"
  | Json.null => "None"
  | Json.arr items => "[" ++ joinSep ", " (reprList items) ++ "]"
  | Json.obj fields => "\x7b" ++ joinSep ", " (reprFields fields) ++ "\x7d"
where
  reprList : List Json → List String
    | [] => []
    | x :: rest => pyRepr x :: reprList rest
  reprFields : List (String × Json) → List String
    | [] => []
    | (k, v) :: rest => (apS ++ k ++ apS ++ ": " ++ pyRepr v) :: reprFields rest

/-- Python `str` of a parsed JSON value (f-string interpolation). -/
def pyStr : Json → String
  | Json.str s => s
  | v => pyRepr v

/-- Python `str.title()`: upper-case each letter that follows a non-letter,
lower-case the other letters. -/
def titleGo : Bool → List Char → List Char
  | _, [] => []
  | prevAlpha, c :: rest =>
    if c.isAlpha then
      (if prevAlpha then c.toLower else c.toUpper) :: titleGo true rest
    else c :: titleGo false rest

/-- `category.replace('_', ' ').title()`. -/
def categoryLabel (category : String) : String :=
  String.mk (titleGo false (category.data.map fun c => if c = '_' then ' ' else c))

/-- The `_query_keywords` table of `ContextProvider`, in source order. -/
def queryKeywords : List (String × List String) := [
  ("products", ["product", "nova", "crm", "hr", "desk", "analytics", "pricing"]),
  ("leadership", ["ceo", "cto", "leadership", "management", "founder", "executive"]),
  ("partners", ["partner", "integration", "ecosystem", "collaboration"]),
  ("company", ["company", "novatech", "mission", "vision", "values"]),
  ("marketing", ["marketing", "campaign", "webinar", "case study", "whitepaper"]),
  ("support", ["support", "help", "faq", "documentation", "training"]),
  ("financial", ["revenue", "valuation", "funding", "investor", "financial"]),
  ("contact", ["contact", "phone", "email", "reach", "get in touch", "call", "message"])]

/-- First-occurrence deduplication, modelling `list(set(...))` (whose order
Python leaves unspecified; no claim depends on the order). -/
def dedupFirst : List String → List String
  | [] => []
  | x :: rest => x :: (dedupFirst rest).filter fun y => y != x

/-- `ContextProvider._identify_relevant_categories` (input already lower-cased). -/
def identify_relevant_categories (query : String) : List String :=
  let relevant := queryKeywords.foldl
    (fun acc entry =>
      if entry.2.any (fun kw => containsSubS kw query) then acc ++ [entry.1] else acc)
    []
  let relevant :=
    if relevant.isEmpty then
      if ["product", "nova", "crm", "hr", "desk", "analytics"].any
          (fun w => containsSubS w query) then ["products"]
      else if ["leadership", "ceo", "cto", "management"].any
          (fun w => containsSubS w query) then ["leadership"]
      else if ["partner", "integration", "ecosystem"].any
          (fun w => containsSubS w query) then ["partners"]
      else if ["company", "novatech", "mission", "vision"].any
          (fun w => containsSubS w query) then ["company"]
      else if ["contact", "phone", "email", "reach", "get in touch", "call",
               "message"].any (fun w => containsSubS w query) then ["contact"]
      else ["company", "products", "leadership", "partners"]
    else relevant
  dedupFirst relevant

/-- `dict.get(key, default)` on a parsed JSON object. -/
def jsonGet (j : Json) (key : String) (default : Json) : Json :=
  match j with
  | Json.obj fields => ((fields.lookup key).getD default)
  | _ => default

/-- Python `x or {}` applied to an optional loaded file. -/
def orEmptyObj : Option Json → Json
  | none => Json.obj []
  | some d => if jsonFalsy d then Json.obj [] else d

/-- The hard-coded fallback of `KnowledgeLoader.get_company_info`. -/
def defaultCompanyInfo : Json :=
  Json.obj [
    ("company_name", Json.str "NovaTech Solutions Pvt. Ltd."),
    ("industry", Json.str "SaaS"),
    ("headquarters", Json.str "Bengaluru, India"),
    ("mission", Json.str "To empower businesses through intelligent software"),
    ("contact", Json.obj []),
    ("core_values", Json.arr [Json.str "Innovation", Json.str "Customer First",
                              Json.str "Integrity"])]

/-- `KnowledgeLoader.get_company_info`. -/
def get_company_info (files : Files) : Json :=
  let data := orEmptyObj (load_knowledge_file files "company_info")
  if jsonFalsy data then defaultCompanyInfo else data

/-- `ContextProvider._get_category_data`. -/
def get_category_data (files : Files) (category : String) : Json :=
  if category = "products" then
    let productsData := orEmptyObj (load_knowledge_file files "products")
    Json.obj [
      ("products", jsonGet productsData "products" (Json.arr [])),
      ("pricing_policies", jsonGet productsData "pricing_policies" (Json.obj [])),
      ("technology_stack", jsonGet productsData "technology_stack" (Json.obj []))]
  else if category = "leadership" then
    let leadershipData := orEmptyObj (load_knowledge_file files "leadership")
    Json.obj [
      ("leadership", jsonGet leadershipData "leadership" (Json.obj [])),
      ("shareholding", jsonGet leadershipData "shareholding" (Json.obj [])),
      ("departments", jsonGet leadershipData "departments" (Json.obj []))]
  else if category = "partners" then
    let partnersData := orEmptyObj (load_knowledge_file files "partners")
    Json.obj [
      ("strategic_partners", jsonGet partnersData "strategic_partners" (Json.arr [])),
      ("sectors_served", jsonGet partnersData "sectors_served" (Json.arr [])),
      ("customer_personas", jsonGet partnersData "customer_personas" (Json.arr []))]
  else if category = "company" then
    let companyData := get_company_info files
    Json.obj [
      ("company_info", companyData),
      ("financials", jsonGet companyData "financials" (Json.obj [])),
      ("culture", jsonGet companyData "culture" (Json.arr []))]
  else if category = "marketing" then
    let marketingData := orEmptyObj (load_knowledge_file files "marketing")
    Json.obj [
      ("marketing_assets", jsonGet marketingData "marketing_assets" (Json.obj [])),
      ("webinars", jsonGet marketingData "webinars" (Json.arr [])),
      ("case_studies", jsonGet marketingData "case_studies" (Json.arr []))]
  else if category = "support" then
    let faqData := orEmptyObj (load_knowledge_file files "faq")
    Json.obj [
      ("general_faq", jsonGet faqData "general_faq" (Json.arr [])),
      ("product_specific_faq", jsonGet faqData "product_specific_faq" (Json.arr [])),
      ("technical_faq", jsonGet faqData "technical_faq" (Json.arr []))]
  else if category = "contact" then
    jsonGet (get_company_info files) "contact" (Json.obj [])
  else Json.obj []

/-- The dictionary returned by `_format_context_for_gemini`
(`categories` is absent in the no-data branch). -/
structure ContextResult where
  context : String
  raw_data : List (String × Json)
  query : String
  categories : Option (List String)

/-- `ContextProvider._format_context_for_gemini`. -/
def format_context_for_gemini (contextData : List (String × Json)) (query : String) :
    ContextResult :=
  if contextData.isEmpty then
    { context := "No specific information available for this query.",
      raw_data := [], query := query, categories := none }
  else
    let step := fun (acc : List String × List (String × Json)) (cd : String × Json) =>
      if jsonFalsy cd.2 then acc
      else
        let header := "\n" ++ categoryLabel cd.1 ++ ":"
        let lines : List String :=
          match cd.2 with
          | Json.obj fields =>
            fields.map fun kv =>
              match kv.2 with
              | Json.obj _ => "- " ++ kv.1 ++ ": " ++ pyStr kv.2
              | Json.arr items =>
                "- " ++ kv.1 ++ ": " ++ joinSep ", " ((items.take 3).map pyStr)
              | v => "- " ++ kv.1 ++ ": " ++ pyStr v
          | Json.arr items => (items.take 3).map fun it => "- " ++ pyStr it
          | _ => []
        (acc.1 ++ header :: lines, acc.2 ++ [cd])
    let built := contextData.foldl step ([], [])
    let contextString :=
      if built.1.isEmpty then "General information available." else joinSep "\n" built.1
    { context := contextString, raw_data := built.2, query := query,
      categories := some (contextData.map fun cd => cd.1) }

/-- The per-query context cache `ContextProvider._cache`. -/
abbrev ContextCache := List (String × ContextResult)

/-- `ContextProvider.get_context_for_query`: serve a cached assembly for a
previously seen (lower-cased, stripped) query, otherwise assemble from the
currently loaded knowledge base and cache the result.  Returns the value
together with the updated cache. -/
def get_context_for_query (cache : ContextCache) (files : Files) (query : String) :
    ContextResult × ContextCache :=
  let queryLower := lowerS query
  let cacheKey := String.mk (stripL queryLower.data)
  match (cache : List (String × ContextResult)).lookup cacheKey with
  | some cached => (cached, cache)
  | none =>
    let relevantCategories := identify_relevant_categories queryLower
    let contextData := relevantCategories.foldl
      (fun acc c =>
        let data := get_category_data files c
        if jsonFalsy data then acc else acc ++ [(c, data)])
      []
    let formatted := format_context_for_gemini contextData query
    (formatted, (cache : List (String × ContextResult)) ++ [(cacheKey, formatted)])

/-! ### Sample knowledge-base fixture used by concrete witnesses -/

/-- A small concrete knowledge base used to instantiate the universally
quantified theorems at concrete inputs. -/
def sampleFiles : Files :=
  [("company_info",
    Json.obj [
      ("company_name", Json.str "NovaTech Solutions Pvt. Ltd."),
      ("industry", Json.str "SaaS"),
      ("contact", Json.obj [("email", Json.str "info@novatech.com")])]),
   ("products",
    Json.obj [
      ("products", Json.arr [Json.obj [("name", Json.str "NovaCRM")]])])]

/-! ### Claims -/

/-- Specification-side key score for C6: 1 for an exact key match, 0.7 for
a substring key match, else 0. -/
def keyScoreSpec (w k : String) : ℚ :=
  if w = lowerS k then 1 else if containsSubS w (lowerS k) then 7/10 else 0

/-- Specification-side value score for C6: 0.8 for an exact string-value
match, 0.5 for a substring match, else 0. -/
def valueScoreSpec (w : String) (v : Json) : ℚ :=
  match v with
  | Json.str s => if w = lowerS s then 4/5 else if containsSubS w (lowerS s) then 1/2 else 0
  | _ => 0

/-- Claim C1: for every query, `process_query` computes the overall
confidence as the arithmetic mean of the classification confidence and the
knowledge confidence, and routes to `"advanced"` exactly when that mean
reaches the configured threshold and the classified intent's value is in
the configured company-query set; in every other case the route is the
language-model fallback `"gemini"`. -/
theorem C1_routing_decision (files : Files) (query : String) :
    (process_query files query).overall_confidence =
      ((process_query files query).classification_confidence +
        (process_query files query).knowledge_confidence) / 2 ∧
    ((process_query files query).processing_route = "advanced" ↔
      (ADVANCED_PROCESSING_CONFIDENCE_THRESHOLD ≤
          (process_query files query).overall_confidence ∧
        (process_query files query).query_type.value ∈ COMPANY_QUERY_TYPES)) ∧
    ((process_query files query).processing_route = "advanced" ∨
      (process_query files query).processing_route = "gemini") := by
  have hmem : (COMPANY_QUERY_TYPES.contains
        (classify_query (normalize_slang query)).1.value = true) ↔
      (classify_query (normalize_slang query)).1.value ∈ COMPANY_QUERY_TYPES :=
    List.elem_iff
  simp only [process_query]
  refine ⟨by trivial, ?_, ?_⟩
  · by_cases hc : (decide (ADVANCED_PROCESSING_CONFIDENCE_THRESHOLD ≤
        ((classify_query (normalize_slang query)).2 +
          (search_knowledge_base files (normalize_slang query)
              (classify_query (normalize_slang query)).1).2) / 2) &&
        COMPANY_QUERY_TYPES.contains
          (classify_query (normalize_slang query)).1.value) = true
    · rw [if_pos hc]
      rw [Bool.and_eq_true, decide_eq_true_eq] at hc
      exact iff_of_true rfl ⟨hc.1, hmem.mp hc.2⟩
    · rw [if_neg hc]
      refine iff_of_false (by simp) ?_
      intro h
      rw [Bool.and_eq_true, decide_eq_true_eq] at hc
      exact hc ⟨h.1, hmem.mpr h.2⟩
  · by_cases hc : (decide (ADVANCED_PROCESSING_CONFIDENCE_THRESHOLD ≤
        ((classify_query (normalize_slang query)).2 +
          (search_knowledge_base files (normalize_slang query)
              (classify_query (normalize_slang query)).1).2) / 2) &&
        COMPANY_QUERY_TYPES.contains
          (classify_query (normalize_slang query)).1.value) = true
    · rw [if_pos hc]
      exact Or.inl rfl
    · rw [if_neg hc]
      exact Or.inr rfl

/-- Claim C6: whenever the knowledge search produces a candidate (the query
word occurs in the lower-cased key, or the value is a string containing
the word), the computed relevance equals `min 1` of the sum of a key score
(1 for an exact key match, 0.7 for a substring match, else 0) and a value
score (0.8 for an exact string-value match, 0.5 for a substring match,
else 0). -/
theorem C6_relevance_decomposition (w k : String) (v : Json)
    (hcand : containsSubS w (lowerS k) = true ∨
      (∃ s, v = Json.str s ∧ containsSubS w (lowerS s) = true)) :
    calculate_relevance w k v = min (keyScoreSpec w k + valueScoreSpec w v) 1 := by
  clear hcand
  cases v with
  | str s =>
    simp only [calculate_relevance, keyScoreSpec, valueScoreSpec]
    split_ifs <;> ring_nf
  | num q => simp [calculate_relevance, keyScoreSpec, valueScoreSpec]
  | bool b => simp [calculate_relevance, keyScoreSpec, valueScoreSpec]
  | null => simp [calculate_relevance, keyScoreSpec, valueScoreSpec]
  | arr items => simp [calculate_relevance, keyScoreSpec, valueScoreSpec]
  | obj fields => simp [calculate_relevance, keyScoreSpec, valueScoreSpec]

/-- Witness for C6 at a concrete candidate: the word "industry" against the
key "industry" with string value "SaaS". -/
theorem C6_relevance_decomposition_witness :
    calculate_relevance "industry" "industry" (Json.str "SaaS") =
      min (keyScoreSpec "industry" "industry" +
        valueScoreSpec "industry" (Json.str "SaaS")) 1 :=
  C6_relevance_decomposition "industry" "industry" (Json.str "SaaS")
    (Or.inl (by decide))

/-- Claim C8: a session whose last activity lies more than the configured
timeout in the past reports `is_timed_out`, and looking it up evicts the
stored record and returns "not found" (`none`) instead of raising. -/
theorem C8_timeout_eviction (timeout now : ℚ) (conversations : Conversations)
    (sessionId : String) (ctx : ConversationContext)
    (hfound : conversations.lookup sessionId = some ctx)
    (hidle : timeout < now - ctx.last_activity) :
    is_timed_out timeout now ctx = true ∧
    get_conversation timeout now conversations sessionId =
      (none, eraseSession sessionId conversations) := by
  have ht : is_timed_out timeout now ctx = true := by
    simp [is_timed_out, hidle]
  refine ⟨ht, ?_⟩
  simp [get_conversation, hfound, ht]

/-- A concrete session context for the C8 witness: created at time 0. -/
def sampleCtx : ConversationContext :=
  { user_id := "unknown", session_id := "s1",
    current_state := ConversationState.GREETING, conversation_history := [],
    response_count := 0, start_time := 0, last_activity := 0 }

/-- Witness for C8: with a 300-second timeout, a session last active at time
0 looked up at time 301 is timed out and evicted. -/
theorem C8_timeout_eviction_witness :
    is_timed_out 300 301 sampleCtx = true ∧
    get_conversation 300 301 [("s1", sampleCtx)] "s1" =
      (none, eraseSession "s1" [("s1", sampleCtx)]) :=
  C8_timeout_eviction 300 301 [("s1", sampleCtx)] "s1" sampleCtx rfl
    (by norm_num [sampleCtx])

/-! ### C2: idempotence of the normalizer -/

/-- Is there a word-bounded, case-insensitive occurrence of the key
`k0 :: kTail` in `s` (given the character `prev` just before `s`)?  This is
exactly the match condition scanned by `subWB`. -/
def hasBdOcc (k0 : Char) (kTail : List Char) (prev : Option Char) :
    List Char → Bool
  | [] => false
  | c :: rest =>
    (prefCI (k0 :: kTail) (c :: rest)
        && (optIsWord prev != isWordChar k0)
        && (isWordChar (lastD k0 kTail) !=
            optIsWord ((c :: rest).drop (k0 :: kTail).length).head?))
      || hasBdOcc k0 kTail (some c) rest

/-- A slang key with no word-bounded occurrence substitutes to the identity. -/
theorem subWB_of_no_occ (k0 : Char) (kTail f : List Char) :
    ∀ (s : List Char) (fuel : Nat) (prev : Option Char),
      hasBdOcc k0 kTail prev s = false → subWB k0 kTail f fuel prev s = s := by
  intro s
  induction s with
  | nil => intro fuel prev _; cases fuel <;> rfl
  | cons c rest ih =>
    intro fuel prev hno
    rw [hasBdOcc, Bool.or_eq_false_iff] at hno
    cases fuel with
    | zero => rfl
    | succ n =>
      rw [subWB]
      rw [if_neg (by rw [hno.1]; exact Bool.false_ne_true)]
      rw [ih n (some c) hno.2]

/-- Does the whole slang-table pass leave `s` unchanged?  Decidable check
that no slang key occurs word-bounded in `s`. -/
def noSlangKeyIn (s : String) : Bool :=
  slangEntries.all fun kf =>
    match kf.1.data with
    | [] => true
    | k0 :: kTail => !hasBdOcc k0 kTail none s.data

/-- If no slang key occurs in `t`, the whole substitution pass fixes `t`. -/
theorem applyEntries_of_no_keys (t : List Char)
    (h : ∀ kf ∈ slangEntries,
      match kf.1.data with
      | [] => True
      | k0 :: kTail => hasBdOcc k0 kTail none t = false) :
    slangEntries.foldl applyEntry t = t := by
  have hgen : ∀ (entries : List (String × String)),
      (∀ kf ∈ entries,
        match kf.1.data with
        | [] => True
        | k0 :: kTail => hasBdOcc k0 kTail none t = false) →
      entries.foldl applyEntry t = t := by
    intro entries
    induction entries with
    | nil => intro _; rfl
    | cons kf rest ih =>
      intro hall
      have hkf := hall kf (List.mem_cons_self kf rest)
      have hfix : applyEntry t kf = t := by
        rw [applyEntry]
        cases hk : kf.1.data with
        | nil => rfl
        | cons k0 kTail =>
          rw [hk] at hkf
          exact subWB_of_no_occ k0 kTail kf.2.data t t.length none hkf
      rw [List.foldl_cons, hfix]
      exact ih fun e he => hall e (List.mem_cons_of_mem kf he)
  exact hgen slangEntries h

set_option maxRecDepth 40000 in
/-- Claim C2 is false as stated: the normalizer is not idempotent.  The
slang value of the key "work" itself contains "work" as a word, so
`normalize_slang "work" = "work experience"` while a second pass yields
"work experience experience". -/
theorem C2_counterexample :
    normalize_slang (normalize_slang "work") ≠ normalize_slang "work" := by
  decide

/-- Claim C2 (amended): the normalizer is idempotent on every input whose
normalization is already fixed by the pipeline stages, i.e. whose
normalization is all lower-case, has no leading/trailing or doubled
whitespace, and contains no word-bounded occurrence of a slang key.  (The
unqualified claim fails, e.g. on "work".) -/
theorem C2_normalize_idempotent_when_converged (x : String)
    (hlow : lowerL (normalize_slang x).data = (normalize_slang x).data)
    (hstrip : stripL (normalize_slang x).data = (normalize_slang x).data)
    (hcoll : collapseWsGo false (normalize_slang x).data = (normalize_slang x).data)
    (hkeys : noSlangKeyIn (normalize_slang x) = true) :
    normalize_slang (normalize_slang x) = normalize_slang x := by
  have hkeys2 : ∀ kf ∈ slangEntries,
      match kf.1.data with
      | [] => True
      | k0 :: kTail => hasBdOcc k0 kTail none (normalize_slang x).data = false := by
    rw [noSlangKeyIn, List.all_eq_true] at hkeys
    intro kf hmem
    have := hkeys kf hmem
    cases hk : kf.1.data with
    | nil => trivial
    | cons k0 kTail =>
      rw [hk] at this
      simpa using this
  show String.mk (stripL (collapseWsGo false
    (slangEntries.foldl applyEntry (stripL (lowerL (normalize_slang x).data))))) =
    normalize_slang x
  rw [hlow, hstrip, applyEntries_of_no_keys _ hkeys2, hcoll, hstrip]

set_option maxRecDepth 40000 in
/-- Witness for the amended C2 at a concrete input: "hello there" satisfies
every convergence condition and normalizes to itself twice. -/
theorem C2_normalize_idempotent_witness :
    normalize_slang (normalize_slang "hello there") = normalize_slang "hello there" :=
  C2_normalize_idempotent_when_converged "hello there" (by decide) (by decide)
    (by decide) (by decide)

/-! ### C3: greeting and "who are you" special cases -/

set_option maxRecDepth 40000 in
/-- Claim C3 is false as stated: the bare query "sup" does not classify as
the casual intent with confidence 1.0.  Normalization rewrites "sup" to
"what is up" before the exact-match greeting check, so no special case and
no pattern fires and the classifier returns `(unknown, 0.0)`. -/
theorem C3_counterexample :
    classify_query "sup" = (QueryType.UNKNOWN, 0) ∧
    classify_query "sup" ≠ (QueryType.CASUAL_CHAT, 1) := by
  constructor <;> decide

set_option maxRecDepth 40000 in
/-- Claim C3 (amended): the bare greeting tokens that survive normalization
("hi", "hello", "hey", "howdy") classify as the casual intent with
confidence exactly 1.0; and every query whose normalized, lower-cased form
contains "who are you" or "what are you" classifies as the casual intent
with confidence 0.8.  ("sup" and "whats up" are excluded: they normalize
to "what is up" and fall through to `(unknown, 0.0)`.) -/
theorem C3_greeting_special_cases :
    (∀ g ∈ (["hi", "hello", "hey", "howdy"] : List String),
      classify_query g = (QueryType.CASUAL_CHAT, 1)) ∧
    (∀ query : String,
      (containsSub "who are you".data (lowerL (normalize_slang query).data) ||
        containsSub "what are you".data (lowerL (normalize_slang query).data)) = true →
      classify_query query = (QueryType.CASUAL_CHAT, 4/5)) := by
  constructor
  · intro g hg
    fin_cases hg <;> decide
  · intro query h
    rw [classify_query]
    rw [if_pos h]

set_option maxRecDepth 40000 in
/-- Witness for the amended C3 at concrete inputs: "hi" and "who are you". -/
theorem C3_greeting_special_cases_witness :
    classify_query "hi" = (QueryType.CASUAL_CHAT, 1) ∧
    classify_query "who are you" = (QueryType.CASUAL_CHAT, 4/5) :=
  ⟨C3_greeting_special_cases.1 "hi" (by simp),
   C3_greeting_special_cases.2 "who are you" (by decide)⟩

/-! ### C4: the company-intent confidence boost compounds across the loop -/

set_option maxRecDepth 40000 in
/-- Full evaluation of the classifier on the query "website": the winning
intent `contact_info` takes the lead at the second of eight loop
iterations, after which the `×1.2` capped boost fires on each of the seven
remaining iterations. -/
theorem classify_website_eval :
    classify_query "website" = (QueryType.CONTACT_INFO, 107/1100 * (6/5)^7) := by
  have hl : lowerL (normalize_slang "website").data = "website".data := by decide
  have hlen : ("website" : String).length = 7 := by decide
  have hf1 : List.filter (fun p => reSearch p "website".data)
      ["^hi$", "^hello$", "^hey$", "^sup$", "^whats? up$", "^howdy$",
       "^good morning$", "^good afternoon$", "^good evening$", "^how are you$",
       "^who are you$", "^what are you$", "^i am human$",
       "^i" ++ apS ++ "m human$"] = [] := by decide
  have hf2 : List.filter (fun p => reSearch p "website".data)
      ["contact.*info", "how.*reach", "email.*address", "phone.*number",
       "website", "office.*location", "get.*touch", "reach.*out",
       "contact.*nova", "email.*nova", "phone.*nova"] = ["website"] := by decide
  have hf3 : List.filter (fun p => reSearch p "website".data)
      ["products?", "services?", "offerings?", "nova.*crm", "nova.*hr",
       "nova.*desk", "nova.*analytics", "pricing", "cost", "price",
       "subscription", "trial", "features?", "what.*products",
       "what.*services", "what.*offerings"] = [] := by decide
  have hf4 : List.filter (fun p => reSearch p "website".data)
      ["leadership", "ceo", "cto", "coo", "management", "executives?",
       "founders?", "directors?", "managers?", "who.*ceo", "who.*cto",
       "who.*coo", "who.*leads", "who.*runs", "who.*manages",
       "leadership.*team", "management.*team"] = [] := by decide
  have hf5 : List.filter (fun p => reSearch p "website".data)
      ["partners?", "partnerships?", "strategic.*partners?", "ecosystem",
       "integrations?", "collaborations?", "alliances?", "who.*partners",
       "what.*partners", "which.*partners", "partner.*companies?",
       "integrations?.*available", "third.*party"] = [] := by decide
  have hf6 : List.filter (fun p => reSearch p "website".data)
      ["company.*info", "about.*nova", "about.*company", "mission", "vision",
       "values", "culture", "headquarters", "office.*location", "founded",
       "established", "industry", "sector", "what.*nova", "who.*nova",
       "tell.*me.*about.*nova", "company.*background", "business.*model",
       "revenue", "financials", "valuation", "employees", "team.*size"] = [] := by
    decide
  have hf7 : List.filter (fun p => reSearch p "website".data)
      ["what.*is.*ai", "what.*is.*machine.*learning", "what.*is.*python",
       "what.*is.*programming", "what.*is.*software.*development",
       "what.*is.*data.*science", "what.*is.*computer.*vision",
       "what.*is.*deep.*learning", "what.*is.*artificial.*intelligence",
       "explain.*ai", "explain.*machine.*learning", "explain.*python",
       "explain.*programming", "how.*does.*ai.*work",
       "how.*does.*machine.*learning.*work", "how.*does.*python.*work",
       "define.*ai", "define.*machine.*learning", "define.*python",
       "define.*programming"] = [] := by decide
  have hf8 : List.filter (fun p => reSearch p "website".data)
      ["current.*activity", "recent.*work", "latest.*projects?",
       "github.*activity", "what.*working.*on", "trending", "news", "weather",
       "job.*opportunities"] = [] := by decide
  have hg : (greetingExacts.any fun g => g.data == "website".data) = false := by
    decide
  have hw : (containsSub "who are you".data "website".data
      || containsSub "what are you".data "website".data) = false := by decide
  simp only [classify_query, hl, intentPatterns, List.foldl, classifyStep,
    hf1, hf2, hf3, hf4, hf5, hf6, hf7, hf8, hg, hw]
  norm_num [hlen, companyBoostTypes, min_def, greetingExacts]

/-- Claim C4 describes the intended behaviour (boost applied exactly once),
but the source applies the `×1.2` boost inside the scoring loop, once per
remaining intent iteration.  For the query "website" the winning intent
`contact_info` is found at the second of eight iterations, so the boost is
applied seven times: the returned confidence is `(107/1100)·(6/5)^7`
(≈ 0.349), not the once-boosted `min((107/1100)·(6/5), 1)` (≈ 0.117). -/
theorem C4_boost_compounds :
    classify_query "website" = (QueryType.CONTACT_INFO, 107/1100 * (6/5)^7) ∧
    (107/1100 : ℚ) * (6/5)^7 ≠ min ((107/1100 : ℚ) * (6/5)) 1 := by
  refine ⟨classify_website_eval, ?_⟩
  norm_num [min_def]

/-! ### C5: bounds of the returned classification confidence -/

/-- The query used to refute claim C5: it matches all nine `real_time`
patterns (the word "job" is shielded from slang rewriting by the
underscore), giving score `116/900 + 1 > 1` with no cap, since `real_time`
is not a company intent. -/
def realTimeQuery : String :=
  "current activity recent work latest projects github activity " ++
    "what working on trending news weather job_opportunities"

/-- The normalization of `realTimeQuery`. -/
def realTimeQueryNorm : String :=
  "current activity recent work experience latest projects github activity " ++
    "what working on trending news weather job_opportunities"

set_option maxRecDepth 200000 in
/-- Claim C5 is false as stated: the confidence returned by `classify_query`
can exceed 1.  On `realTimeQuery` every `real_time` pattern matches and the
final score is `254/225 > 1`; the `min(·, 1)` cap is only ever applied on
the company-intent boost path. -/
theorem C5_counterexample :
    (classify_query realTimeQuery).2 = 254/225 ∧
    ¬((classify_query realTimeQuery).2 ≤ 1) := by
  have hl : lowerL (normalize_slang realTimeQuery).data = realTimeQueryNorm.data := by
    decide
  have hf1 : List.filter (fun p => reSearch p realTimeQueryNorm.data)
      ["^hi$", "^hello$", "^hey$", "^sup$", "^whats? up$", "^howdy$",
       "^good morning$", "^good afternoon$", "^good evening$", "^how are you$",
       "^who are you$", "^what are you$", "^i am human$",
       "^i" ++ apS ++ "m human$"] = [] := by decide
  have hf2 : List.filter (fun p => reSearch p realTimeQueryNorm.data)
      ["contact.*info", "how.*reach", "email.*address", "phone.*number",
       "website", "office.*location", "get.*touch", "reach.*out",
       "contact.*nova", "email.*nova", "phone.*nova"] = [] := by decide
  have hf3 : List.filter (fun p => reSearch p realTimeQueryNorm.data)
      ["products?", "services?", "offerings?", "nova.*crm", "nova.*hr",
       "nova.*desk", "nova.*analytics", "pricing", "cost", "price",
       "subscription", "trial", "features?", "what.*products",
       "what.*services", "what.*offerings"] = [] := by decide
  have hf4 : List.filter (fun p => reSearch p realTimeQueryNorm.data)
      ["leadership", "ceo", "cto", "coo", "management", "executives?",
       "founders?", "directors?", "managers?", "who.*ceo", "who.*cto",
       "who.*coo", "who.*leads", "who.*runs", "who.*manages",
       "leadership.*team", "management.*team"] = [] := by decide
  have hf5 : List.filter (fun p => reSearch p realTimeQueryNorm.data)
      ["partners?", "partnerships?", "strategic.*partners?", "ecosystem",
       "integrations?", "collaborations?", "alliances?", "who.*partners",
       "what.*partners", "which.*partners", "partner.*companies?",
       "integrations?.*available", "third.*party"] = [] := by decide
  have hf6 : List.filter (fun p => reSearch p realTimeQueryNorm.data)
      ["company.*info", "about.*nova", "about.*company", "mission", "vision",
       "values", "culture", "headquarters", "office.*location", "founded",
       "established", "industry", "sector", "what.*nova", "who.*nova",
       "tell.*me.*about.*nova", "company.*background", "business.*model",
       "revenue", "financials", "valuation", "employees", "team.*size"] = [] := by
    decide
  have hf7 : List.filter (fun p => reSearch p realTimeQueryNorm.data)
      ["what.*is.*ai", "what.*is.*machine.*learning", "what.*is.*python",
       "what.*is.*programming", "what.*is.*software.*development",
       "what.*is.*data.*science", "what.*is.*computer.*vision",
       "what.*is.*deep.*learning", "what.*is.*artificial.*intelligence",
       "explain.*ai", "explain.*machine.*learning", "explain.*python",
       "explain.*programming", "how.*does.*ai.*work",
       "how.*does.*machine.*learning.*work", "how.*does.*python.*work",
       "define.*ai", "define.*machine.*learning", "define.*python",
       "define.*programming"] = [] := by decide
  have hf8 : List.filter (fun p => reSearch p realTimeQueryNorm.data)
      ["current.*activity", "recent.*work", "latest.*projects?",
       "github.*activity", "what.*working.*on", "trending", "news", "weather",
       "job.*opportunities"] =
      ["current.*activity", "recent.*work", "latest.*projects?",
       "github.*activity", "what.*working.*on", "trending", "news", "weather",
       "job.*opportunities"] := by decide
  have hg : (greetingExacts.any fun g => g.data == realTimeQueryNorm.data) = false := by
    decide
  have hw : (containsSub "who are you".data realTimeQueryNorm.data
      || containsSub "what are you".data realTimeQueryNorm.data) = false := by decide
  have hlen1 : ("current.*activity" : String).length = 17 := by decide
  have hlen2 : ("recent.*work" : String).length = 12 := by decide
  have hlen3 : ("latest.*projects?" : String).length = 17 := by decide
  have hlen4 : ("github.*activity" : String).length = 16 := by decide
  have hlen5 : ("what.*working.*on" : String).length = 17 := by decide
  have hlen6 : ("trending" : String).length = 8 := by decide
  have hlen7 : ("news" : String).length = 4 := by decide
  have hlen8 : ("weather" : String).length = 7 := by decide
  have hlen9 : ("job.*opportunities" : String).length = 18 := by decide
  have heval : (classify_query realTimeQuery).2 = 254/225 := by
    simp only [classify_query, hl, intentPatterns, List.foldl, classifyStep,
      hf1, hf2, hf3, hf4, hf5, hf6, hf7, hf8, hg, hw]
    norm_num [hlen1, hlen2, hlen3, hlen4, hlen5, hlen6, hlen7, hlen8, hlen9,
      companyBoostTypes, min_def, greetingExacts]
    simp
  refine ⟨heval, ?_⟩
  rw [heval]
  norm_num

/-- The in-loop company boost keeps nonnegative scores nonnegative. -/
theorem boostShape_nonneg (p : QueryType × ℚ) (h : 0 ≤ p.2) :
    0 ≤ (if companyBoostTypes.contains p.1 then (p.1, min (p.2 * (6/5)) 1)
         else p).2 := by
  by_cases hc : companyBoostTypes.contains p.1 = true
  · rw [if_pos hc]
    exact le_min (by positivity) (by norm_num)
  · rw [if_neg hc]
    exact h

/-- After the in-loop company boost, a leading company intent has score
at most 1 (the boost ends in `min(·, 1)`). -/
theorem boostShape_le_one (p : QueryType × ℚ)
    (h : (if companyBoostTypes.contains p.1 then (p.1, min (p.2 * (6/5)) 1)
          else p).1 ∈ companyBoostTypes) :
    (if companyBoostTypes.contains p.1 then (p.1, min (p.2 * (6/5)) 1)
     else p).2 ≤ 1 := by
  by_cases hc : companyBoostTypes.contains p.1 = true
  · rw [if_pos hc]
    exact min_le_right _ _
  · rw [if_neg hc] at h ⊢
    exact absurd (List.elem_iff.mpr h) hc

/-- Every score produced in one scoring iteration is nonnegative. -/
theorem classifyStep_nonneg (nq : List Char) (st : QueryType × ℚ)
    (e : QueryType × List String) (h : 0 ≤ st.2) : 0 ≤ (classifyStep nq st e).2 := by
  refine boostShape_nonneg
    (if 0 < (e.2.filter fun p => reSearch p nq).length then
      (if st.2 <
          ((e.2.filter fun p => reSearch p nq).map fun p => (p.length : ℚ) / 100).sum /
            (e.2.length : ℚ) +
          ((e.2.filter fun p => reSearch p nq).length : ℚ) / (e.2.length : ℚ) then
        (e.1,
          ((e.2.filter fun p => reSearch p nq).map fun p => (p.length : ℚ) / 100).sum /
            (e.2.length : ℚ) +
          ((e.2.filter fun p => reSearch p nq).length : ℚ) / (e.2.length : ℚ))
      else st)
     else st) ?_
  have hsum : (0 : ℚ) ≤
      ((e.2.filter fun p => reSearch p nq).map fun p => (p.length : ℚ) / 100).sum :=
    List.sum_nonneg (by
      intro x hx
      rw [List.mem_map] at hx
      obtain ⟨p, _, hp⟩ := hx
      rw [← hp]
      positivity)
  have hfs : (0 : ℚ) ≤
      ((e.2.filter fun p => reSearch p nq).map fun p => (p.length : ℚ) / 100).sum /
        (e.2.length : ℚ) +
      ((e.2.filter fun p => reSearch p nq).length : ℚ) / (e.2.length : ℚ) :=
    add_nonneg (div_nonneg hsum (Nat.cast_nonneg _))
      (div_nonneg (Nat.cast_nonneg _) (Nat.cast_nonneg _))
  split_ifs <;> first | exact hfs | exact h

/-- When an iteration leaves a company intent in the lead, the stored score
was just passed through `min(·, 1)`. -/
theorem classifyStep_company_le_one (nq : List Char) (st : QueryType × ℚ)
    (e : QueryType × List String)
    (h : (classifyStep nq st e).1 ∈ companyBoostTypes) :
    (classifyStep nq st e).2 ≤ 1 :=
  boostShape_le_one _ h

/-- The scoring loop keeps scores nonnegative. -/
theorem classifyLoop_nonneg (nq : List Char) :
    ∀ (l : List (QueryType × List String)) (st : QueryType × ℚ), 0 ≤ st.2 →
      0 ≤ (l.foldl (classifyStep nq) st).2 := by
  intro l
  induction l with
  | nil => intro st h; exact h
  | cons e rest ih =>
    intro st h
    rw [List.foldl_cons]
    exact ih _ (classifyStep_nonneg nq st e h)

/-- If the scoring loop ends with a company intent in the lead, the final
score is at most 1. -/
theorem classifyLoop_company_le_one (nq : List Char) :
    ∀ (l : List (QueryType × List String)) (st : QueryType × ℚ), l ≠ [] →
      (l.foldl (classifyStep nq) st).1 ∈ companyBoostTypes →
      (l.foldl (classifyStep nq) st).2 ≤ 1 := by
  intro l
  induction l with
  | nil => intro st h; exact absurd rfl h
  | cons e rest ih =>
    intro st _ hmem
    cases rest with
    | nil =>
      rw [List.foldl_cons, List.foldl_nil] at hmem ⊢
      exact classifyStep_company_le_one nq st e hmem
    | cons e2 rest2 =>
      rw [List.foldl_cons] at hmem ⊢
      exact ih (classifyStep nq st e) (by simp) hmem

/-- Claim C5 (amended): the confidence returned by `classify_query` is
always nonnegative, and is at most 1 whenever the returned intent is one of
the five company-knowledge intents (for which the source applies the capped
boost); for other intents it can exceed 1 (see the counterexample). -/
theorem C5_confidence_bounds (query : String) :
    0 ≤ (classify_query query).2 ∧
    ((classify_query query).1 ∈ companyBoostTypes → (classify_query query).2 ≤ 1) := by
  rw [classify_query]
  split_ifs with h1 h2
  · norm_num
  · norm_num
  · constructor
    · exact classifyLoop_nonneg _ intentPatterns (QueryType.UNKNOWN, 0) (by norm_num)
    · intro hmem
      exact classifyLoop_company_le_one _ intentPatterns (QueryType.UNKNOWN, 0)
        (by simp [intentPatterns]) hmem

set_option maxRecDepth 40000 in
/-- Witness for the amended C5 at a concrete input: "website" classifies to
the company intent `contact_info`, so its confidence lies in `[0, 1]`. -/
theorem C5_confidence_bounds_witness :
    0 ≤ (classify_query "website").2 ∧ (classify_query "website").2 ≤ 1 :=
  ⟨(C5_confidence_bounds "website").1,
   (C5_confidence_bounds "website").2
     (by rw [classify_website_eval]; decide)⟩

/-! ### C7: knowledge confidence from search results -/

set_option maxRecDepth 100000 in
/-- Claim C7: `search_knowledge_base` returns a pair whose confidence is 0
when the result list is empty and otherwise the mean relevance of the top
three results ranked by relevance; a query with no knowledge-base overlap
(the nonsense token "zzqxnotfound", for any intent) yields the empty list
with confidence 0 as a normal return value (the embedding is total: no
exception path exists). -/
theorem C7_knowledge_confidence (files : Files) (query : String)
    (queryType : QueryType) :
    ((search_knowledge_base files query queryType).1.isEmpty = true →
      (search_knowledge_base files query queryType).2 = 0) ∧
    ((search_knowledge_base files query queryType).1.isEmpty = false →
      (search_knowledge_base files query queryType).2 =
        (((sortByRelDesc (search_knowledge_base files query queryType).1).take 3).map
            fun r => r.relevance).sum /
          ((((sortByRelDesc (search_knowledge_base files query queryType).1).take 3).length : ℚ))) ∧
    (∀ qt : QueryType,
      (search_knowledge_base sampleFiles "zzqxnotfound" qt).1.isEmpty = true ∧
      (search_knowledge_base sampleFiles "zzqxnotfound" qt).2 = 0) := by
  have hdef : (search_knowledge_base files query queryType).2 =
      (if (search_knowledge_base files query queryType).1.isEmpty then (0 : ℚ) else
        (((sortByRelDesc (search_knowledge_base files query queryType).1).take 3).map
            fun r => r.relevance).sum /
          ((((sortByRelDesc (search_knowledge_base files query queryType).1).take 3).length : ℚ))) :=
    rfl
  refine ⟨?_, ?_, ?_⟩
  · intro h
    rw [hdef, h, if_pos rfl]
  · intro h
    rw [hdef, h]
    simp
  · intro qt
    cases qt <;> exact ⟨by decide, by decide⟩

set_option maxRecDepth 100000 in
/-- Witness for C7 at the sample knowledge base: searching "industry" with
the `company_info` intent yields a nonempty result list, so the confidence
equals the top-three mean. -/
theorem C7_knowledge_confidence_witness :
    (search_knowledge_base sampleFiles "industry" QueryType.COMPANY_INFO).1.isEmpty
        = false ∧
    (search_knowledge_base sampleFiles "industry" QueryType.COMPANY_INFO).2 =
      (((sortByRelDesc
          (search_knowledge_base sampleFiles "industry" QueryType.COMPANY_INFO).1).take 3).map
          fun r => r.relevance).sum /
        ((((sortByRelDesc
          (search_knowledge_base sampleFiles "industry" QueryType.COMPANY_INFO).1).take 3).length : ℚ)) :=
  ⟨by decide,
   (C7_knowledge_confidence sampleFiles "industry" QueryType.COMPANY_INFO).2.1
     (by decide)⟩

/-! ### C9: context cache not invalidated on knowledge reload -/

/-- Knowledge-base contents before the reload for C9. -/
def filesBefore : Files :=
  [("company_info",
    Json.obj [
      ("company_name", Json.str "NovaTech Solutions Pvt. Ltd."),
      ("contact", Json.obj [("email", Json.str "old@novatech.com")])])]

/-- Knowledge-base contents after the reload for C9: the contact email
changed on disk, so `load_knowledge_file` serves the new value. -/
def filesAfter : Files :=
  [("company_info",
    Json.obj [
      ("company_name", Json.str "NovaTech Solutions Pvt. Ltd."),
      ("contact", Json.obj [("email", Json.str "new@novatech.com")])])]

set_option maxRecDepth 100000 in
/-- Claim C9 is violated by the code: after the underlying knowledge base
reloads, a repeated query is answered from the stale per-query cache.  The
query "contact" is first assembled against `filesBefore` (filling the
cache); re-asking it against `filesAfter` returns the cached assembly with
the old email, which differs from the cache-free assembly against
`filesAfter`. -/
theorem C9_stale_cache_after_reload :
    (get_context_for_query
        (get_context_for_query [] filesBefore "contact").2 filesAfter "contact").1.context =
      (get_context_for_query [] filesBefore "contact").1.context ∧
    (get_context_for_query
        (get_context_for_query [] filesBefore "contact").2 filesAfter "contact").1.context ≠
      (get_context_for_query [] filesAfter "contact").1.context := by
  constructor <;> decide

/-! ### C10: every returned search result has relevance in [0.5, 1] -/

/-- Starts-with is reflexive. -/
theorem prefOf_refl : ∀ l : List Char, prefOf l l = true := by
  intro l
  induction l with
  | nil => rfl
  | cons c rest ih => simp [prefOf, ih]

/-- A string contains itself as a substring. -/
theorem containsSub_self : ∀ p : List Char, containsSub p p = true := by
  intro p
  cases p with
  | nil => rfl
  | cons c rest => simp [containsSub, prefOf_refl]

/-- Relevance never exceeds 1. -/
theorem calculate_relevance_le_one (w k : String) (v : Json) :
    calculate_relevance w k v ≤ 1 :=
  min_le_right _ _

/-- A string contains itself (`String`版 of `containsSub_self`). -/
theorem containsSubS_self (a : String) : containsSubS a a = true :=
  containsSub_self a.data

/-- A word that actually matched (`firstMatchWord`) scores at least 0.5:
a key match contributes at least 0.7 and a string-value match at least
0.5, and the `min(·, 1)` cap cannot go below 0.5. -/
theorem calculate_relevance_ge_half (words : List String) (k : String) (v : Json)
    (w : String) (hfind : firstMatchWord words k v = some w) :
    1/2 ≤ calculate_relevance w k v := by
  have hp := List.find?_some hfind
  rw [Bool.or_eq_true] at hp
  have hs0 : (0:ℚ) ≤
      (if w = lowerS k then (1:ℚ) else if containsSubS w (lowerS k) then 7/10 else 0) := by
    split_ifs <;> norm_num
  cases v with
  | str v2 =>
    have hv2 : containsSubS w (lowerS k) = true ∨ containsSubS w (lowerS v2) = true := by
      simpa using hp
    simp only [calculate_relevance]
    refine le_min ?_ (by norm_num)
    by_cases hck : containsSubS w (lowerS k) = true
    · have hs7 : (7:ℚ)/10 ≤
          (if w = lowerS k then (1:ℚ)
           else if containsSubS w (lowerS k) then 7/10 else 0) := by
        split_ifs with h1
        · norm_num
        · norm_num
      split_ifs <;> linarith
    · have hsv : containsSubS w (lowerS v2) = true := by
        rcases hv2 with h | h
        · exact absurd h hck
        · exact h
      have hwk : ¬(w = lowerS k) := by
        intro he
        exact hck (by rw [he]; exact containsSubS_self (lowerS k))
      rw [if_neg hwk, if_neg hck]
      split_ifs with h1
      · norm_num
      · norm_num
  | num q =>
    have hck : containsSubS w (lowerS k) = true := by simpa using hp
    simp only [calculate_relevance]
    refine le_min ?_ (by norm_num)
    split_ifs with h1
    · norm_num
    · norm_num
  | bool b =>
    have hck : containsSubS w (lowerS k) = true := by simpa using hp
    simp only [calculate_relevance]
    refine le_min ?_ (by norm_num)
    split_ifs with h1
    · norm_num
    · norm_num
  | null =>
    have hck : containsSubS w (lowerS k) = true := by simpa using hp
    simp only [calculate_relevance]
    refine le_min ?_ (by norm_num)
    split_ifs with h1
    · norm_num
    · norm_num
  | arr items =>
    have hck : containsSubS w (lowerS k) = true := by simpa using hp
    simp only [calculate_relevance]
    refine le_min ?_ (by norm_num)
    split_ifs with h1
    · norm_num
    · norm_num
  | obj fields =>
    have hck : containsSubS w (lowerS k) = true := by simpa using hp
    simp only [calculate_relevance]
    refine le_min ?_ (by norm_num)
    split_ifs with h1
    · norm_num
    · norm_num

/-- Every result emitted by the recursive walk has relevance in [0.5, 1]. -/
theorem searchRecursive_relevance_bounds (fuel : Nat) :
    ∀ (data : Json) (words : List String) (category path : String),
      ∀ r ∈ searchRecursive fuel data words category path,
        1/2 ≤ r.relevance ∧ r.relevance ≤ 1 := by
  induction fuel with
  | zero =>
    intro data words category path r hr
    simp [searchRecursive] at hr
  | succ n ih =>
    intro data words category path r hr
    cases data with
    | str s => simp [searchRecursive] at hr
    | num q => simp [searchRecursive] at hr
    | bool b => simp [searchRecursive] at hr
    | null => simp [searchRecursive] at hr
    | obj fields =>
      revert hr
      induction fields with
      | nil => intro hr; simp [searchRecursive] at hr
      | cons kv rest ihf =>
        intro hr
        have hsplit : searchRecursive (n+1) (Json.obj (kv :: rest)) words category path =
            (match firstMatchWord words kv.1 kv.2 with
              | some w =>
                [{ category := category,
                   path := if path = "" then kv.1 else path ++ "." ++ kv.1, key := kv.1,
                   value := kv.2,
                   relevance := calculate_relevance w kv.1 kv.2 }]
              | none => []) ++
            (match kv.2 with
              | Json.obj _ => searchRecursive n kv.2 words category
                  (if path = "" then kv.1 else path ++ "." ++ kv.1)
              | Json.arr _ => searchRecursive n kv.2 words category
                  (if path = "" then kv.1 else path ++ "." ++ kv.1)
              | _ => []) ++
            searchRecursive (n+1) (Json.obj rest) words category path := rfl
        rw [hsplit] at hr
        rw [List.mem_append, List.mem_append] at hr
        rcases hr with (hr | hr) | hr
        · cases hw : firstMatchWord words kv.1 kv.2 with
          | none => rw [hw] at hr; simp at hr
          | some w =>
            rw [hw] at hr
            rw [List.mem_singleton] at hr
            rw [hr]
            exact ⟨calculate_relevance_ge_half words kv.1 kv.2 w hw,
              calculate_relevance_le_one w kv.1 kv.2⟩
        · cases hv : kv.2 with
          | obj fields2 => rw [hv] at hr; exact ih _ words category _ r hr
          | arr items2 => rw [hv] at hr; exact ih _ words category _ r hr
          | str s => rw [hv] at hr; simp at hr
          | num q => rw [hv] at hr; simp at hr
          | bool b => rw [hv] at hr; simp at hr
          | null => rw [hv] at hr; simp at hr
        · exact ihf hr
    | arr items =>
      have hsplit : searchRecursive (n+1) (Json.arr items) words category path =
          (items.enum).foldr
            (fun ix acc =>
              searchRecursive n ix.2 words category
                (path ++ "[" ++ toString ix.1 ++ "]") ++ acc)
            [] := rfl
      rw [hsplit] at hr
      revert hr
      generalize items.enum = ps
      induction ps with
      | nil => intro hr; simp at hr
      | cons p ps ihp =>
        intro hr
        rw [List.foldr_cons, List.mem_append] at hr
        rcases hr with hr | hr
        · exact ih _ words category _ r hr
        · exact ihp hr

/-- Bounds carry over from the recursive walk to the category search. -/
theorem mem_search_in_knowledge_bounds (files : Files) (query : String)
    (category : Option String) :
    ∀ r ∈ search_in_knowledge files query category,
      1/2 ≤ r.relevance ∧ r.relevance ≤ 1 := by
  have hgen : ∀ (cats : List String) (acc : List SearchResult),
      (∀ x ∈ acc, 1/2 ≤ x.relevance ∧ x.relevance ≤ 1) →
      ∀ x ∈ cats.foldl
        (fun acc cat =>
          match load_knowledge_file files cat with
          | none => acc
          | some data =>
            if jsonFalsy data then acc
            else acc ++ searchRecursive (jsonFuel data) data (queryWords query) cat "")
        acc,
      1/2 ≤ x.relevance ∧ x.relevance ≤ 1 := by
    intro cats
    induction cats with
    | nil => intro acc hacc x hx; exact hacc x hx
    | cons c cs ihc =>
      intro acc hacc x hx
      rw [List.foldl_cons] at hx
      refine ihc _ ?_ x hx
      intro y hy
      cases hld : load_knowledge_file files c with
      | none =>
        simp only [hld] at hy
        exact hacc y hy
      | some data =>
        simp only [hld] at hy
        by_cases hf : jsonFalsy data = true
        · rw [if_pos hf] at hy; exact hacc y hy
        · rw [if_neg hf] at hy
          rw [List.mem_append] at hy
          rcases hy with hy | hy
          · exact hacc y hy
          · exact searchRecursive_relevance_bounds _ _ _ _ _ y hy
  intro r hr
  cases category with
  | some c =>
    have hr2 : r ∈ ([c] : List String).foldl
        (fun acc cat =>
          match load_knowledge_file files cat with
          | none => acc
          | some data =>
            if jsonFalsy data then acc
            else acc ++ searchRecursive (jsonFuel data) data (queryWords query) cat "")
        [] := hr
    exact hgen [c] [] (by intro x hx; simp at hx) r hr2
  | none =>
    have hr2 : r ∈ KNOWLEDGE_BASE_KEYS.foldl
        (fun acc cat =>
          match load_knowledge_file files cat with
          | none => acc
          | some data =>
            if jsonFalsy data then acc
            else acc ++ searchRecursive (jsonFuel data) data (queryWords query) cat "")
        [] := hr
    exact hgen KNOWLEDGE_BASE_KEYS [] (by intro x hx; simp at hx) r hr2

/-- Membership through the stable insertion used for sorting. -/
theorem mem_insDesc (x : SearchResult) (l : List SearchResult) (r : SearchResult)
    (h : r ∈ insDesc x l) : r = x ∨ r ∈ l := by
  induction l with
  | nil => simpa [insDesc] using h
  | cons y ys ih =>
    rw [insDesc] at h
    by_cases hc : y.relevance < x.relevance
    · rw [if_pos hc] at h
      rw [List.mem_cons] at h
      rcases h with h | h
      · exact Or.inl h
      · exact Or.inr h
    · rw [if_neg hc] at h
      rw [List.mem_cons] at h
      rcases h with h | h
      · exact Or.inr (h ▸ List.mem_cons_self y ys)
      · rcases ih h with h2 | h2
        · exact Or.inl h2
        · exact Or.inr (List.mem_cons_of_mem y h2)

/-- The descending sort returns only elements of its input. -/
theorem mem_sortByRelDesc (l : List SearchResult) (r : SearchResult)
    (h : r ∈ sortByRelDesc l) : r ∈ l := by
  rw [sortByRelDesc] at h
  have hgen : ∀ (l2 acc : List SearchResult),
      r ∈ l2.foldl (fun acc x => insDesc x acc) acc → r ∈ acc ∨ r ∈ l2 := by
    intro l2
    induction l2 with
    | nil => intro acc h2; exact Or.inl h2
    | cons y ys ih =>
      intro acc h2
      rw [List.foldl_cons] at h2
      rcases ih _ h2 with h3 | h3
      · rcases mem_insDesc y acc r h3 with h4 | h4
        · exact Or.inr (h4 ▸ List.mem_cons_self y ys)
        · exact Or.inl h4
      · exact Or.inr (List.mem_cons_of_mem y h3)
  rcases hgen l [] h with h2 | h2
  · simp at h2
  · exact h2

/-- Insertion grows the length by one. -/
theorem length_insDesc (x : SearchResult) (l : List SearchResult) :
    (insDesc x l).length = l.length + 1 := by
  induction l with
  | nil => rfl
  | cons y ys ih =>
    rw [insDesc]
    split_ifs <;> simp [ih]

/-- Sorting preserves the length. -/
theorem length_sortByRelDesc (l : List SearchResult) :
    (sortByRelDesc l).length = l.length := by
  rw [sortByRelDesc]
  have hgen : ∀ (l2 acc : List SearchResult),
      (l2.foldl (fun acc x => insDesc x acc) acc).length = acc.length + l2.length := by
    intro l2
    induction l2 with
    | nil => intro acc; simp
    | cons y ys ih =>
      intro acc
      rw [List.foldl_cons, ih (insDesc y acc), length_insDesc]
      simp only [List.length_cons]
      omega
  simpa using hgen l []

/-- A list of results each scoring at least one half sums to at least half
its length. -/
theorem half_length_le_sum (l : List SearchResult)
    (h : ∀ r ∈ l, 1/2 ≤ r.relevance) :
    (l.length : ℚ) * (1/2) ≤ (l.map fun r => r.relevance).sum := by
  induction l with
  | nil => simp
  | cons y ys ih =>
    simp only [List.map_cons, List.sum_cons, List.length_cons]
    have h1 := h y (List.mem_cons_self y ys)
    have h2 := ih fun r hr => h r (List.mem_cons_of_mem y hr)
    push_cast
    linarith

/-- Claim C10: every result returned by `search_in_knowledge` carries a
relevance score in [0.5, 1] (a returned candidate always matched at least
as a substring of a key, contributing at least 0.7, or of a string value,
contributing at least 0.5, and scores are capped at 1); consequently every
nonempty search yields a knowledge confidence of at least 0.5. -/
theorem C10_search_relevance_bounds (files : Files) (query : String)
    (category : Option String) :
    (∀ r ∈ search_in_knowledge files query category,
      1/2 ≤ r.relevance ∧ r.relevance ≤ 1) ∧
    (∀ queryType : QueryType,
      (search_knowledge_base files query queryType).1.isEmpty = false →
      1/2 ≤ (search_knowledge_base files query queryType).2) := by
  refine ⟨mem_search_in_knowledge_bounds files query category, ?_⟩
  intro qt hne
  have hdef : (search_knowledge_base files query qt).2 =
      (if (search_knowledge_base files query qt).1.isEmpty then (0 : ℚ) else
        (((sortByRelDesc (search_knowledge_base files query qt).1).take 3).map
            fun r => r.relevance).sum /
          ((((sortByRelDesc (search_knowledge_base files query qt).1).take 3).length : ℚ))) :=
    rfl
  have hres : (search_knowledge_base files query qt).1 =
      search_in_knowledge files (normalize_slang query) (categoryOf qt) := rfl
  rw [hdef, hne]
  simp only [Bool.false_eq_true, if_false]
  have hmemL : ∀ r ∈ (sortByRelDesc (search_knowledge_base files query qt).1).take 3,
      1/2 ≤ r.relevance := by
    intro r hr
    have h1 : r ∈ sortByRelDesc (search_knowledge_base files query qt).1 :=
      List.take_subset 3 _ hr
    have h2 : r ∈ (search_knowledge_base files query qt).1 :=
      mem_sortByRelDesc _ r h1
    rw [hres] at h2
    exact (mem_search_in_knowledge_bounds files (normalize_slang query)
      (categoryOf qt) r h2).1
  have hnonnil : (search_knowledge_base files query qt).1 ≠ [] := by
    intro he
    rw [he] at hne
    simp at hne
  have hlenpos :
      0 < ((sortByRelDesc (search_knowledge_base files query qt).1).take 3).length := by
    rw [List.length_take, length_sortByRelDesc]
    have := List.length_pos.mpr hnonnil
    omega
  have hlenposQ :
      (0 : ℚ) <
        (((sortByRelDesc (search_knowledge_base files query qt).1).take 3).length : ℚ) := by
    exact_mod_cast hlenpos
  rw [le_div_iff₀ hlenposQ]
  calc (1:ℚ)/2 *
      (((sortByRelDesc (search_knowledge_base files query qt).1).take 3).length : ℚ)
      = ((((sortByRelDesc (search_knowledge_base files query qt).1).take 3).length : ℚ))
          * (1/2) := by ring
    _ ≤ _ := half_length_le_sum _ hmemL

/-- The single result of searching "industry" in the sample knowledge base. -/
def industrySearchResult : SearchResult :=
  { category := "company_info", path := "industry", key := "industry",
    value := Json.str "SaaS",
    relevance := calculate_relevance "industry" "industry" (Json.str "SaaS") }

set_option maxRecDepth 100000 in
/-- Witness for C10 at the sample knowledge base: the concrete result for
the query "industry" has relevance in [0.5, 1], and the nonempty search
scores a knowledge confidence of at least 0.5. -/
theorem C10_search_relevance_bounds_witness :
    (1/2 ≤ industrySearchResult.relevance ∧ industrySearchResult.relevance ≤ 1) ∧
    1/2 ≤ (search_knowledge_base sampleFiles "industry" QueryType.COMPANY_INFO).2 := by
  constructor
  · refine (C10_search_relevance_bounds sampleFiles "industry"
      (some "company_info")).1 industrySearchResult ?_
    have hlist : search_in_knowledge sampleFiles "industry" (some "company_info") =
        [industrySearchResult] := rfl
    rw [hlist]
    exact List.mem_singleton_self _
  · exact (C10_search_relevance_bounds sampleFiles "industry"
      (some "company_info")).2 QueryType.COMPANY_INFO (by decide)

end NovaTech